import Mathlib

/-!
Verification of the LitHub document extractor (`src/lithub.py`).

The development shallowly embeds the pure content of `extract_docx_content`
and the comment-handling branch of the `review` route handler.  The docx
parsing library, PIL image decoding and base64 re-encoding are abstracted as
data already carried by the input document: a paragraph carries its style
name and runs, a table its cell texts, and an image relation carries either
the decoded image (detected format plus the base64 of the re-encoded bytes)
or nothing, modelling `PIL.Image.open` raising on an undecodable blob.
-/

namespace LitHub

/-- ASCII case of Python `str.lower` on one character (the style names and
keywords the code compares are ASCII). -/
def pyLowerChar (c : Char) : Char :=
  if 65 ≤ c.toNat ∧ c.toNat ≤ 90 then Char.ofNat (c.toNat + 32) else c

/-- Python `str.lower`. -/
def pyLower (s : String) : String :=
  String.mk (s.data.map pyLowerChar)

/-- The whitespace characters Python `str.strip` removes (ASCII subset). -/
def pySpace (c : Char) : Bool :=
  c.toNat = 32 ∨ c.toNat = 9 ∨ c.toNat = 10 ∨ c.toNat = 13
    ∨ c.toNat = 11 ∨ c.toNat = 12

/-- Python `str.strip()`: drop leading and trailing whitespace. -/
def pyStrip (s : String) : String :=
  String.mk (((s.data.dropWhile pySpace).reverse.dropWhile pySpace).reverse)

/-- Python `s.startswith(pat)`. -/
def pyStartsWith (s pat : String) : Bool :=
  pat.data.isPrefixOf s.data

/-- Python `s.endswith(pat)`. -/
def pyEndsWith (s pat : String) : Bool :=
  pat.data.isSuffixOf s.data

/-- Python `pat in s` / `re.search` for a literal pattern: `s` contains
`pat` as a contiguous substring. -/
def containsSub (s pat : String) : Bool :=
  s.data.tails.any (fun t => pat.data.isPrefixOf t)

/-- A text run: `run.text`, `run.bold`, `run.italic` (truthiness of the
python-docx tri-state flags). -/
structure Run where
  text : String
  bold : Bool
  italic : Bool
deriving DecidableEq, Repr

/-- A paragraph block: `block.style.name` and the sequence of runs. -/
structure DocxParagraph where
  styleName : String
  runs : List Run
deriving DecidableEq, Repr

/-- `paragraph.text` in python-docx is the concatenation of its runs' texts. -/
def DocxParagraph.text (p : DocxParagraph) : String :=
  String.join (p.runs.map Run.text)

/-- A table block: rows of cells, each cell reduced to its `cell.text`. -/
structure DocxTable where
  rows : List (List String)
deriving DecidableEq, Repr

/-- A top-level body element yielded by `iter_block_items`: a `w:p`
paragraph or a `w:tbl` table, in document order. -/
inductive Block where
  | para (p : DocxParagraph)
  | table (t : DocxTable)
deriving DecidableEq, Repr

/-- The result of `PIL.Image.open` on a decodable blob: `img.format`
(possibly `None`) and the base64 text of the bytes written back by
`img.save` (the byte-level re-encoding is abstracted as given data). -/
structure PILImage where
  format : Option String
  savedBase64 : String
deriving DecidableEq, Repr

/-- One entry of `doc.part.rels.values()`: its `reltype` string and the
target blob, already run through `PIL.Image.open` (`none` models the blob
that cannot be decoded as a raster image, where `Image.open` raises). -/
structure Rel where
  reltype : String
  blob : Option PILImage
deriving DecidableEq, Repr

/-- A parsed document: the body blocks in order and the relationship
entries in the order the relationship table yields them (that enumeration
order is taken as part of the input). -/
structure DocxDocument where
  blocks : List Block
  rels : List Rel
deriving DecidableEq, Repr

/-- `doc.paragraphs`: the paragraph blocks of the body, tables excluded. -/
def DocxDocument.paragraphs (d : DocxDocument) : List DocxParagraph :=
  d.blocks.filterMap (fun b => match b with | .para p => some p | .table _ => none)

/-- The exception `extract_docx_content` can let escape: `PIL` raising on
an undecodable embedded image. -/
inductive ExtractError where
  | unidentifiedImage
deriving DecidableEq, Repr

/-- The value returned by `extract_docx_content`, as the tuple
`(title, description, "".join(content), [])`; `contentItems` keeps the
`content` list whose join is `bodyHtml`. -/
structure ExtractedContent where
  title : String
  description : String
  contentItems : List String
  bodyHtml : String
  images : List String
deriving DecidableEq, Repr

/-- Inline HTML of one run:
`if run.bold: run_text = f"<b>\x7brun_text\x7d</b>"` then
`if run.italic: run_text = f"<i>\x7brun_text\x7d</i>"`; an empty-text run
is skipped. -/
def runHtml (r : Run) : String :=
  if r.text = "" then ""
  else
    let t1 := if r.bold then "<b>" ++ r.text ++ "</b>" else r.text
    if r.italic then "<i>" ++ t1 ++ "</i>" else t1

/-- `para_html`: concatenation of the runs' inline HTML. -/
def paraHtml (runs : List Run) : String :=
  String.join (runs.map runHtml)

/-- `f"</\x7blist_open\x7d>"`. -/
def closeTag (t : String) : String :=
  "</" ++ t ++ ">"

/-- One table cell: `f"<td class=...>\x7bcell.text.strip()\x7d</td>"`. -/
def tdCell (cell : String) : String :=
  "<td class=\"border p-2\">" ++ pyStrip cell ++ "</td>"

/-- The `table_html` accumulation for a table block (`+=` left folds over
rows and cells): source rows in order, each cell's trimmed text in a `td`. -/
def tableHtml (t : DocxTable) : String :=
  (t.rows.foldl (fun acc row =>
      (row.foldl (fun acc2 cell => acc2 ++ tdCell cell) (acc ++ "<tr>"))
        ++ "</tr>")
    "<table class=\"table-auto border border-collapse border-gray-300 my-4\">")
    ++ "</table>"

/-- One iteration of the body loop: the items appended to `content` and
the new `list_open` state. -/
def processBlock (listOpen : Option String) (b : Block) :
    List String × Option String :=
  match b with
  | .para p =>
    let style := pyLower p.styleName
    let text := pyStrip p.text
    if text = "" then ([], listOpen)
    else if containsSub style "heading" || pyStartsWith (pyLower text) "chapter" then
      let closes := match listOpen with | some t => [closeTag t] | none => []
      (closes ++ ["<h2 class=\"text-xl font-bold mt-6 mb-2\">" ++ text ++ "</h2>"],
       none)
    else if pyStartsWith style "list" || containsSub style "bullet"
        || containsSub style "number" then
      let tag := if containsSub style "bullet" then "ul" else "ol"
      match listOpen with
      | some cur =>
        if cur ≠ tag then
          ([closeTag cur, "<" ++ tag ++ ">", "<li>" ++ text ++ "</li>"], some tag)
        else
          (["<li>" ++ text ++ "</li>"], some cur)
      | none => (["<" ++ tag ++ ">", "<li>" ++ text ++ "</li>"], some tag)
    else
      let closes := match listOpen with | some t => [closeTag t] | none => []
      let ph := paraHtml p.runs
      if pyStrip ph = "" then (closes, none)
      else (closes ++ ["<p>" ++ pyStrip ph ++ "</p>"], none)
  | .table t =>
    let closes := match listOpen with | some tg => [closeTag tg] | none => []
    (closes ++ [tableHtml t], none)

/-- The whole body loop over the remaining blocks, followed by the
post-loop `if list_open: content.append(...)` flush. -/
def processBlocks (listOpen : Option String) : List Block → List String
  | [] => (match listOpen with | some t => [closeTag t] | none => [])
  | b :: bs =>
    let s := processBlock listOpen b
    s.1 ++ processBlocks s.2 bs

/-- The `img` tag appended for one embedded image. -/
def imageTag (fmt b64 : String) : String :=
  "<img src=\"data:image/" ++ fmt ++ ";base64," ++ b64
    ++ "\" class=\"my-4 max-w-full h-auto\"/>"

/-- The image pass over `doc.part.rels.values()`: every rel whose reltype
contains "image" contributes an `img` tag; an undecodable blob makes
`Image.open` raise, aborting extraction. -/
def renderImages : List Rel → Except ExtractError (List String)
  | [] => .ok []
  | rel :: rest =>
    if containsSub rel.reltype "image" then
      match rel.blob with
      | none => .error .unidentifiedImage
      | some img =>
        let fmt := match img.format with | some f => pyLower f | none => "jpeg"
        (renderImages rest).map (fun tags => imageTag fmt img.savedBase64 :: tags)
    else renderImages rest

/-- `extract_docx_content` on an already-parsed document: title and
description from the first two paragraphs, body pass over
`list(iter_block_items(doc))[2:]`, image tags appended after all content,
returning `(title, description, "".join(content), [])`. -/
def extract_docx_content (doc : DocxDocument) :
    Except ExtractError ExtractedContent :=
  let title := match doc.paragraphs with
    | [] => "Untitled Review"
    | p :: _ => pyStrip p.text
  let description := match doc.paragraphs with
    | _ :: q :: _ => pyStrip q.text
    | _ => "No description available."
  let bodyItems := processBlocks none (doc.blocks.drop 2)
  match renderImages doc.rels with
  | .error e => .error e
  | .ok imgs =>
    let content := bodyItems ++ imgs
    .ok ⟨title, description, content, String.join content, []⟩

/-- One row of the `comments` table (the autoincrement id is immaterial to
the properties stated here and omitted). -/
structure CommentRow where
  review_name : String
  comment : String
  timestamp : String
deriving DecidableEq, Repr

/-- The observable outcome of the `review` route on a POST request. -/
inductive ReviewPostResponse where
  | invalidFile
  | notFound
  | redirectToReview (name : String)
deriving DecidableEq, Repr

/-- The POST branch of the `review` route handler: the `.docx` suffix and
existence guards, then `request.form.get("comment")` (`none` when the field
is missing); a row is inserted only when the field is truthy (present and
non-empty), and the handler redirects back in every remaining case. -/
def review_post (name : String) (fileExists : Bool)
    (commentField : Option String) (now : String) (db : List CommentRow) :
    List CommentRow × ReviewPostResponse :=
  if ¬ pyEndsWith name ".docx" then (db, .invalidFile)
  else if ¬ fileExists then (db, .notFound)
  else
    match commentField with
    | some c =>
      if c ≠ "" then (db ++ [⟨name, c, now⟩], .redirectToReview name)
      else (db, .redirectToReview name)
    | none => (db, .redirectToReview name)

/-! ## List-tag balance

A small automaton over the emitted `content` items that tracks the single
list element the extractor may have open: reading the exact item `"<ul>"`
or `"<ol>"` opens that list (rejecting if one is already open), reading
`"</ul>"` or `"</ol>"` closes the matching open list (rejecting on a
mismatch or when nothing is open), and every other item is neutral. -/

/-- One automaton step; `none` is rejection. -/
def tagStep (st : Option String) (item : String) : Option (Option String) :=
  if item = "<ul>" then
    match st with | none => some (some "ul") | some _ => none
  else if item = "<ol>" then
    match st with | none => some (some "ol") | some _ => none
  else if item = "</ul>" then
    match st with | some t => if t = "ul" then some none else none | none => none
  else if item = "</ol>" then
    match st with | some t => if t = "ol" then some none else none | none => none
  else some st

/-- Run the automaton over a list of emitted items. -/
def scanTags (st : Option String) : List String → Option (Option String)
  | [] => some st
  | x :: xs =>
    match tagStep st x with
    | none => none
    | some st2 => scanTags st2 xs

/-- A sequence of content items has balanced list tags: scanning from the
no-open-list state accepts and ends with no open list. -/
def balancedListTags (items : List String) : Prop :=
  scanTags none items = some none

/-- The values the `list_open` variable can hold. -/
def ValidState (s : Option String) : Prop :=
  s = none ∨ s = some "ul" ∨ s = some "ol"

theorem tagStep_long (st : Option String) (item : String)
    (h : 5 < item.length) : tagStep st item = some st := by
  have h1 : item ≠ "<ul>" := by rintro rfl; exact absurd h (by decide)
  have h2 : item ≠ "<ol>" := by rintro rfl; exact absurd h (by decide)
  have h3 : item ≠ "</ul>" := by rintro rfl; exact absurd h (by decide)
  have h4 : item ≠ "</ol>" := by rintro rfl; exact absurd h (by decide)
  simp only [tagStep, if_neg h1, if_neg h2, if_neg h3, if_neg h4]

theorem length_append_left (a b : String) (h : 5 < a.length) :
    5 < (a ++ b).length := by
  rw [String.length_append]; omega

theorem length_append_right (a b : String) (h : 5 < b.length) :
    5 < (a ++ b).length := by
  rw [String.length_append]; omega

theorem scanTags_append (xs ys : List String) (s : Option String) :
    scanTags s (xs ++ ys)
      = (scanTags s xs).bind (fun m => scanTags m ys) := by
  induction xs generalizing s with
  | nil => simp [scanTags]
  | cons x xs ih =>
    simp only [List.cons_append, scanTags]
    cases tagStep s x with
    | none => simp
    | some st2 => simpa using ih st2

theorem scanTags_cons_long (s : Option String) (x : String) (xs : List String)
    (h : 5 < x.length) : scanTags s (x :: xs) = scanTags s xs := by
  simp only [scanTags, tagStep_long s x h]

theorem tableHtml_long (t : DocxTable) : 5 < (tableHtml t).length :=
  length_append_right _ _ (by decide)

theorem imageTag_long (f b : String) : 5 < (imageTag f b).length :=
  length_append_right _ _ (by decide)

theorem scanTags_close_ul (rest : List String) :
    scanTags (some "ul") (closeTag "ul" :: rest) = scanTags none rest := rfl

theorem scanTags_close_ol (rest : List String) :
    scanTags (some "ol") (closeTag "ol" :: rest) = scanTags none rest := rfl

theorem scanTags_open_ul (rest : List String) :
    scanTags none ("<ul>" :: rest) = scanTags (some "ul") rest := rfl

theorem scanTags_open_ol (rest : List String) :
    scanTags none ("<ol>" :: rest) = scanTags (some "ol") rest := rfl

theorem h2Item_long (text : String) :
    5 < ("<h2 class=\"text-xl font-bold mt-6 mb-2\">" ++ text ++ "</h2>").length :=
  length_append_left "<h2 class=\"text-xl font-bold mt-6 mb-2\">"
    (text ++ "</h2>") (by decide)

theorem liItem_long (text : String) :
    5 < ("<li>" ++ text ++ "</li>").length := by
  have c1 : ("<li>" : String).length = 4 := by decide
  have c2 : ("</li>" : String).length = 5 := by decide
  rw [String.length_append, String.length_append, c1, c2]
  omega

theorem pItem_long (text : String) :
    5 < ("<p>" ++ text ++ "</p>").length := by
  have c1 : ("<p>" : String).length = 3 := by decide
  have c2 : ("</p>" : String).length = 4 := by decide
  rw [String.length_append, String.length_append, c1, c2]
  omega

/-- The per-iteration invariant: starting from a reachable `list_open`
state, the items one block appends drive the automaton exactly to the
block's new `list_open` state, which is again reachable. -/
theorem processBlock_scan (s : Option String) (b : Block) (hs : ValidState s) :
    scanTags s (processBlock s b).1 = some (processBlock s b).2
      ∧ ValidState (processBlock s b).2 := by
  cases b with
  | table t =>
    refine ⟨?_, Or.inl rfl⟩
    rcases hs with rfl | rfl | rfl
    · show scanTags none [tableHtml t] = some none
      rw [scanTags_cons_long none _ _ (tableHtml_long t)]; rfl
    · show scanTags (some "ul") (closeTag "ul" :: [tableHtml t]) = some none
      rw [scanTags_close_ul, scanTags_cons_long none _ _ (tableHtml_long t)]; rfl
    · show scanTags (some "ol") (closeTag "ol" :: [tableHtml t]) = some none
      rw [scanTags_close_ol, scanTags_cons_long none _ _ (tableHtml_long t)]; rfl
  | para p =>
    simp only [processBlock]
    by_cases h0 : pyStrip p.text = ""
    · rw [if_pos h0]
      exact ⟨rfl, hs⟩
    · rw [if_neg h0]
      by_cases h1 : (containsSub (pyLower p.styleName) "heading"
          || pyStartsWith (pyLower (pyStrip p.text)) "chapter") = true
      · rw [if_pos h1]
        refine ⟨?_, Or.inl rfl⟩
        rcases hs with rfl | rfl | rfl
        · show scanTags none
            ["<h2 class=\"text-xl font-bold mt-6 mb-2\">" ++ pyStrip p.text ++ "</h2>"]
            = some none
          rw [scanTags_cons_long none _ _ (h2Item_long _)]; rfl
        · show scanTags (some "ul") (closeTag "ul"
            :: ["<h2 class=\"text-xl font-bold mt-6 mb-2\">" ++ pyStrip p.text ++ "</h2>"])
            = some none
          rw [scanTags_close_ul, scanTags_cons_long none _ _ (h2Item_long _)]; rfl
        · show scanTags (some "ol") (closeTag "ol"
            :: ["<h2 class=\"text-xl font-bold mt-6 mb-2\">" ++ pyStrip p.text ++ "</h2>"])
            = some none
          rw [scanTags_close_ol, scanTags_cons_long none _ _ (h2Item_long _)]; rfl
      · rw [if_neg h1]
        by_cases h2 : (pyStartsWith (pyLower p.styleName) "list"
            || containsSub (pyLower p.styleName) "bullet"
            || containsSub (pyLower p.styleName) "number") = true
        · rw [if_pos h2]
          by_cases hb : containsSub (pyLower p.styleName) "bullet" = true
          · rw [if_pos hb]
            rcases hs with rfl | rfl | rfl
            · refine ⟨?_, Or.inr (Or.inl rfl)⟩
              show scanTags none ("<ul>" :: ["<li>" ++ pyStrip p.text ++ "</li>"])
                = some (some "ul")
              rw [scanTags_open_ul, scanTags_cons_long _ _ _ (liItem_long _)]; rfl
            · refine ⟨?_, Or.inr (Or.inl rfl)⟩
              show scanTags (some "ul") ["<li>" ++ pyStrip p.text ++ "</li>"]
                = some (some "ul")
              rw [scanTags_cons_long _ _ _ (liItem_long _)]; rfl
            · refine ⟨?_, Or.inr (Or.inl rfl)⟩
              show scanTags (some "ol")
                (closeTag "ol" :: "<ul>" :: ["<li>" ++ pyStrip p.text ++ "</li>"])
                = some (some "ul")
              rw [scanTags_close_ol, scanTags_open_ul,
                scanTags_cons_long _ _ _ (liItem_long _)]; rfl
          · rw [if_neg hb]
            rcases hs with rfl | rfl | rfl
            · refine ⟨?_, Or.inr (Or.inr rfl)⟩
              show scanTags none ("<ol>" :: ["<li>" ++ pyStrip p.text ++ "</li>"])
                = some (some "ol")
              rw [scanTags_open_ol, scanTags_cons_long _ _ _ (liItem_long _)]; rfl
            · refine ⟨?_, Or.inr (Or.inr rfl)⟩
              show scanTags (some "ul")
                (closeTag "ul" :: "<ol>" :: ["<li>" ++ pyStrip p.text ++ "</li>"])
                = some (some "ol")
              rw [scanTags_close_ul, scanTags_open_ol,
                scanTags_cons_long _ _ _ (liItem_long _)]; rfl
            · refine ⟨?_, Or.inr (Or.inr rfl)⟩
              show scanTags (some "ol") ["<li>" ++ pyStrip p.text ++ "</li>"]
                = some (some "ol")
              rw [scanTags_cons_long _ _ _ (liItem_long _)]; rfl
        · rw [if_neg h2]
          by_cases h3 : pyStrip (paraHtml p.runs) = ""
          · rw [if_pos h3]
            refine ⟨?_, Or.inl rfl⟩
            rcases hs with rfl | rfl | rfl <;> rfl
          · rw [if_neg h3]
            refine ⟨?_, Or.inl rfl⟩
            rcases hs with rfl | rfl | rfl
            · show scanTags none ["<p>" ++ pyStrip (paraHtml p.runs) ++ "</p>"]
                = some none
              rw [scanTags_cons_long none _ _ (pItem_long _)]; rfl
            · show scanTags (some "ul") (closeTag "ul"
                :: ["<p>" ++ pyStrip (paraHtml p.runs) ++ "</p>"]) = some none
              rw [scanTags_close_ul, scanTags_cons_long none _ _ (pItem_long _)]; rfl
            · show scanTags (some "ol") (closeTag "ol"
                :: ["<p>" ++ pyStrip (paraHtml p.runs) ++ "</p>"]) = some none
              rw [scanTags_close_ol, scanTags_cons_long none _ _ (pItem_long _)]; rfl

/-- The whole-pass invariant: from a reachable state, the body pass plus
its final flush always leaves the automaton accepting with no open list. -/
theorem processBlocks_scan (bs : List Block) (s : Option String)
    (hs : ValidState s) : scanTags s (processBlocks s bs) = some none := by
  induction bs generalizing s with
  | nil =>
    rcases hs with rfl | rfl | rfl
    · rfl
    · simpa [processBlocks] using scanTags_close_ul []
    · simpa [processBlocks] using scanTags_close_ol []
  | cons b bs ih =>
    have h := processBlock_scan s b hs
    simp only [processBlocks]
    rw [scanTags_append, h.1]
    exact ih _ h.2

theorem renderImages_ok_shape (rels : List Rel) (imgs : List String)
    (h : renderImages rels = .ok imgs) :
    ∀ x ∈ imgs, ∃ f b, x = imageTag f b := by
  induction rels generalizing imgs with
  | nil =>
    simp only [renderImages] at h
    cases h
    intro x hx; cases hx
  | cons rel rest ih =>
    simp only [renderImages] at h
    by_cases hi : containsSub rel.reltype "image" = true
    · rw [if_pos hi] at h
      cases hb : rel.blob with
      | none => rw [hb] at h; cases h
      | some img =>
        rw [hb] at h
        cases hr : renderImages rest with
        | error e => rw [hr] at h; cases h
        | ok tags =>
          rw [hr] at h
          cases h
          intro x hx
          rcases List.mem_cons.mp hx with rfl | hx2
          · exact ⟨_, _, rfl⟩
          · exact ih tags hr x hx2
    · rw [if_neg hi] at h
      exact ih imgs h

theorem renderImages_ok_length (rels : List Rel) (imgs : List String)
    (h : renderImages rels = .ok imgs) :
    imgs.length
      = (rels.filter (fun r => containsSub r.reltype "image")).length := by
  induction rels generalizing imgs with
  | nil => simp only [renderImages] at h; cases h; rfl
  | cons rel rest ih =>
    simp only [renderImages] at h
    by_cases hi : containsSub rel.reltype "image" = true
    · rw [if_pos hi] at h
      cases hb : rel.blob with
      | none => rw [hb] at h; cases h
      | some img =>
        rw [hb] at h
        cases hr : renderImages rest with
        | error e => rw [hr] at h; cases h
        | ok tags =>
          rw [hr] at h
          cases h
          simp [List.filter, hi, ih tags hr]
    · rw [if_neg hi] at h
      simp [List.filter, hi, ih imgs h]

theorem renderImages_error_of_bad (rels : List Rel) (rel : Rel)
    (hmem : rel ∈ rels) (himg : containsSub rel.reltype "image" = true)
    (hbad : rel.blob = none) :
    renderImages rels = .error .unidentifiedImage := by
  induction rels with
  | nil => cases hmem
  | cons r rest ih =>
    rcases List.mem_cons.mp hmem with rfl | hmem2
    · simp only [renderImages, if_pos himg, hbad]
    · simp only [renderImages]
      by_cases hi : containsSub r.reltype "image" = true
      · rw [if_pos hi]
        cases hb : r.blob with
        | none => rfl
        | some img => rw [ih hmem2]; rfl
      · rw [if_neg hi]; exact ih hmem2

theorem scanTags_all_long (xs : List String) (s : Option String)
    (h : ∀ x ∈ xs, 5 < x.length) : scanTags s xs = some s := by
  induction xs with
  | nil => rfl
  | cons x xs ih =>
    rw [scanTags_cons_long s x xs (h x (List.mem_cons_self x xs))]
    exact ih (fun y hy => h y (List.mem_cons_of_mem x hy))

/-- Destructing a successful extraction into its title and description
policy, its body pass and its image pass. -/
theorem extract_ok_elim (d : DocxDocument) (res : ExtractedContent)
    (h : extract_docx_content d = .ok res) :
    ∃ imgs, renderImages d.rels = .ok imgs
      ∧ res = ⟨(match d.paragraphs with
                 | [] => "Untitled Review"
                 | p :: _ => pyStrip p.text),
               (match d.paragraphs with
                 | _ :: q :: _ => pyStrip q.text
                 | _ => "No description available."),
               processBlocks none (d.blocks.drop 2) ++ imgs,
               String.join (processBlocks none (d.blocks.drop 2) ++ imgs),
               []⟩ := by
  unfold extract_docx_content at h
  cases hr : renderImages d.rels with
  | error e => rw [hr] at h; cases h
  | ok imgs =>
    rw [hr] at h
    cases h
    exact ⟨imgs, rfl, rfl⟩

/-- Mapping a successful or failed extraction down to its content items. -/
theorem extract_map_contentItems (blocks : List Block) (rels : List Rel) :
    (extract_docx_content ⟨blocks, rels⟩).map ExtractedContent.contentItems
      = (renderImages rels).map
          (fun imgs => processBlocks none (blocks.drop 2) ++ imgs) := by
  unfold extract_docx_content
  cases renderImages rels <;> rfl

/-- Mapping a successful or failed extraction down to its body HTML. -/
theorem extract_map_bodyHtml (blocks : List Block) (rels : List Rel) :
    (extract_docx_content ⟨blocks, rels⟩).map ExtractedContent.bodyHtml
      = (renderImages rels).map
          (fun imgs => String.join (processBlocks none (blocks.drop 2) ++ imgs)) := by
  unfold extract_docx_content
  cases renderImages rels <;> rfl

/-! ## Claims -/

/-- Claim C1, counterexample: on a plain paragraph whose single run has
both flags set, the extractor emits the italic wrap outermost
(`<p><i><b>x</b></i></p>`), not the claimed bold-outermost nesting. -/
theorem C1_counterexample :
    extract_docx_content ⟨[.para ⟨"Normal", [⟨"T", false, false⟩]⟩,
        .para ⟨"Normal", [⟨"D", false, false⟩]⟩,
        .para ⟨"Normal", [⟨"x", true, true⟩]⟩], []⟩
      = Except.ok ⟨"T", "D", ["<p><i><b>x</b></i></p>"],
          "<p><i><b>x</b></i></p>", []⟩
    ∧ ("<p><i><b>x</b></i></p>" : String) ≠ "<p><b><i>x</i></b></p>" :=
  ⟨rfl, by decide⟩

/-- Claim C1, amended: for every run with non-empty text and both flags
set, the inline HTML wraps the text in a bold tag first and an italic tag
around it, so the italic tag is outermost and the bold tag inside. -/
theorem C1_amended_italic_outer (t : String) (ht : ¬ t = "") :
    runHtml ⟨t, true, true⟩ = "<i>" ++ ("<b>" ++ t ++ "</b>") ++ "</i>"
    ∧ paraHtml [⟨t, true, true⟩] = "<i>" ++ ("<b>" ++ t ++ "</b>") ++ "</i>" := by
  constructor
  · simp [runHtml, ht]
  · simp [paraHtml, String.join, runHtml, ht]

/-- Claim C1, witness for the amended theorem at the run text "x". -/
theorem C1_amended_witness :
    runHtml ⟨"x", true, true⟩ = "<i>" ++ ("<b>" ++ "x" ++ "</b>") ++ "</i>"
    ∧ paraHtml [⟨"x", true, true⟩] = "<i>" ++ ("<b>" ++ "x" ++ "</b>") ++ "</i>" :=
  C1_amended_italic_outer "x" (by decide)

/-- Claim C2, counterexample: for a document with one embedded PNG, the
returned images component is the empty list rather than a one-element list
of data-URIs; the data-URI appears only inside the body HTML. -/
theorem C2_counterexample :
    extract_docx_content ⟨[],
        [⟨"http://schemas.openxmlformats.org/officeDocument/2006/relationships/image",
          some ⟨some "PNG", "AAAA"⟩⟩]⟩
      = Except.ok ⟨"Untitled Review", "No description available.",
          ["<img src=\"data:image/png;base64,AAAA\" class=\"my-4 max-w-full h-auto\"/>"],
          "<img src=\"data:image/png;base64,AAAA\" class=\"my-4 max-w-full h-auto\"/>", []⟩
    ∧ ([] : List String) ≠ ["data:image/png;base64,AAAA"] :=
  ⟨rfl, by decide⟩

/-- Claim C2, amended: the images component of every successful extraction
is the empty list; instead, one `img` data-URI tag per image relation is
appended to the content items after the body blocks. -/
theorem C2_amended_images_empty (d : DocxDocument) (res : ExtractedContent)
    (imgs : List String) (h : extract_docx_content d = .ok res)
    (hr : renderImages d.rels = .ok imgs) :
    res.images = []
    ∧ res.contentItems = processBlocks none (d.blocks.drop 2) ++ imgs
    ∧ imgs.length
        = (d.rels.filter (fun r => containsSub r.reltype "image")).length
    ∧ ∀ x ∈ imgs, ∃ f b, x = imageTag f b := by
  obtain ⟨imgs2, hr2, rfl⟩ := extract_ok_elim d res h
  rw [hr] at hr2
  cases Except.ok.inj hr2
  exact ⟨rfl, rfl, renderImages_ok_length _ _ hr, renderImages_ok_shape _ _ hr⟩

/-- Claim C2, witness for the amended theorem on a document with a single
embedded PNG image. -/
theorem C2_amended_witness :
    (ExtractedContent.mk "Untitled Review" "No description available."
        ["<img src=\"data:image/png;base64,AAAA\" class=\"my-4 max-w-full h-auto\"/>"]
        "<img src=\"data:image/png;base64,AAAA\" class=\"my-4 max-w-full h-auto\"/>"
        []).images = []
    ∧ (ExtractedContent.mk "Untitled Review" "No description available."
        ["<img src=\"data:image/png;base64,AAAA\" class=\"my-4 max-w-full h-auto\"/>"]
        "<img src=\"data:image/png;base64,AAAA\" class=\"my-4 max-w-full h-auto\"/>"
        []).contentItems
      = processBlocks none (([] : List Block).drop 2)
          ++ ["<img src=\"data:image/png;base64,AAAA\" class=\"my-4 max-w-full h-auto\"/>"]
    ∧ (["<img src=\"data:image/png;base64,AAAA\" class=\"my-4 max-w-full h-auto\"/>"]
        : List String).length
      = (([⟨"http://x/relationships/image", some ⟨some "PNG", "AAAA"⟩⟩] : List Rel).filter
          (fun r => containsSub r.reltype "image")).length
    ∧ ∀ x ∈ (["<img src=\"data:image/png;base64,AAAA\" class=\"my-4 max-w-full h-auto\"/>"]
        : List String), ∃ f b, x = imageTag f b :=
  C2_amended_images_empty
    ⟨[], [⟨"http://x/relationships/image", some ⟨some "PNG", "AAAA"⟩⟩]⟩
    ⟨"Untitled Review", "No description available.",
      ["<img src=\"data:image/png;base64,AAAA\" class=\"my-4 max-w-full h-auto\"/>"],
      "<img src=\"data:image/png;base64,AAAA\" class=\"my-4 max-w-full h-auto\"/>", []⟩
    ["<img src=\"data:image/png;base64,AAAA\" class=\"my-4 max-w-full h-auto\"/>"]
    rfl rfl

/-- Claim C3, counterexample: a document with three paragraphs and one
undecodable embedded image yields no result at all — extraction aborts
with the image error instead of skipping the image and returning the
rest of the document. -/
theorem C3_counterexample :
    extract_docx_content ⟨[.para ⟨"Normal", [⟨"T", false, false⟩]⟩,
        .para ⟨"Normal", [⟨"D", false, false⟩]⟩,
        .para ⟨"Normal", [⟨"Body text", false, false⟩]⟩],
      [⟨"http://x/relationships/image", none⟩]⟩
      = Except.error ExtractError.unidentifiedImage := rfl

/-- Claim C3, amended: whenever any image relation of the document carries
a blob that cannot be decoded as a raster image, the whole extraction
aborts with the image-decoding error and returns no partial result. -/
theorem C3_amended_abort (d : DocxDocument) (rel : Rel) (hmem : rel ∈ d.rels)
    (himg : containsSub rel.reltype "image" = true) (hbad : rel.blob = none) :
    extract_docx_content d = Except.error ExtractError.unidentifiedImage := by
  unfold extract_docx_content
  rw [renderImages_error_of_bad d.rels rel hmem himg hbad]

/-- Claim C3, witness for the amended theorem on a document with a single
bad image relation. -/
theorem C3_amended_witness :
    extract_docx_content ⟨[], [⟨"http://x/relationships/image", none⟩]⟩
      = Except.error ExtractError.unidentifiedImage :=
  C3_amended_abort ⟨[], [⟨"http://x/relationships/image", none⟩]⟩
    ⟨"http://x/relationships/image", none⟩
    (List.mem_cons_self _ _) (by decide) rfl

/-- Claim C4, counterexample: a document whose first paragraph exists but
has empty trimmed text gets the empty string as title, not the claimed
"Untitled Review" default. -/
theorem C4_counterexample :
    extract_docx_content ⟨[.para ⟨"Normal", [⟨" ", false, false⟩]⟩], []⟩
      = Except.ok ⟨"", "No description available.", [], "", []⟩
    ∧ ("" : String) ≠ "Untitled Review" :=
  ⟨rfl, by decide⟩

/-- Claim C4, amended: the defaults apply only when the paragraph is
absent — the title is "Untitled Review" exactly when the document has no
paragraph at all, and otherwise the first paragraph's trimmed text even
when that is empty; likewise the description defaults exactly when there
is no second paragraph, and is otherwise the second paragraph's trimmed
text even when empty. -/
theorem C4_amended_defaults (d : DocxDocument) (res : ExtractedContent)
    (h : extract_docx_content d = .ok res) :
    res.title = (match d.paragraphs with
      | [] => "Untitled Review"
      | p :: _ => pyStrip p.text)
    ∧ res.description = (match d.paragraphs with
      | _ :: q :: _ => pyStrip q.text
      | _ => "No description available.") := by
  obtain ⟨imgs, hr, rfl⟩ := extract_ok_elim d res h
  exact ⟨rfl, rfl⟩

/-- Claim C4, witness for the amended theorem on the empty document. -/
theorem C4_amended_witness :
    (ExtractedContent.mk "Untitled Review" "No description available."
        [] "" []).title = "Untitled Review"
    ∧ (ExtractedContent.mk "Untitled Review" "No description available."
        [] "" []).description = "No description available." :=
  C4_amended_defaults ⟨[], []⟩
    ⟨"Untitled Review", "No description available.", [], "", []⟩ rfl

/-- Claim C5, counterexample: in a document whose blocks are a table
followed by the two title/description paragraphs, the title and
description still come from the two paragraphs, yet the body is
`<p>Desc</p>` — the description paragraph is rendered into the body and
the table does not appear in it at all. -/
theorem C5_counterexample :
    extract_docx_content ⟨[.table ⟨[["X"]]⟩,
        .para ⟨"Normal", [⟨"Title", false, false⟩]⟩,
        .para ⟨"Normal", [⟨"Desc", false, false⟩]⟩], []⟩
      = Except.ok ⟨"Title", "Desc", ["<p>Desc</p>"], "<p>Desc</p>", []⟩
    ∧ containsSub "<p>Desc</p>" "<table" = false :=
  ⟨rfl, by decide⟩

/-- Claim C5, amended: the body pass excludes exactly the first two blocks
in document order, whatever their kind — the body HTML does not depend on
what the first two blocks are, and a table sitting at the third position
is processed into the body (first content item), even though the
title/description always come from the first two paragraphs. -/
theorem C5_amended_first_two_blocks (b1 b2 b1' b2' : Block)
    (rest : List Block) (rels : List Rel) (t : DocxTable) :
    (extract_docx_content ⟨b1 :: b2 :: rest, rels⟩).map ExtractedContent.bodyHtml
      = (extract_docx_content ⟨b1' :: b2' :: rest, rels⟩).map ExtractedContent.bodyHtml
    ∧ (extract_docx_content ⟨b1 :: b2 :: Block.table t :: rest, rels⟩).map
        ExtractedContent.contentItems
      = (renderImages rels).map
          (fun imgs => (tableHtml t :: processBlocks none rest) ++ imgs) := by
  constructor
  · rw [extract_map_bodyHtml, extract_map_bodyHtml]
    rfl
  · rw [extract_map_contentItems]
    rfl

/-- Claim C6: in a document whose body blocks are a bullet-list-styled
paragraph immediately followed by a numbered-list-styled paragraph, the
content items are a complete ul block followed by a separate complete ol
block: the open ul is closed before the ol is opened. -/
theorem C6_list_tag_change (b1 b2 : Block) (sb sn a b : String) (rels : List Rel)
    (hb1 : containsSub (pyLower sb) "heading" = false)
    (hb2 : ¬ pyStrip a = "")
    (hb3 : pyStartsWith (pyLower (pyStrip a)) "chapter" = false)
    (hb4 : containsSub (pyLower sb) "bullet" = true)
    (hn1 : containsSub (pyLower sn) "heading" = false)
    (hn2 : ¬ pyStrip b = "")
    (hn3 : pyStartsWith (pyLower (pyStrip b)) "chapter" = false)
    (hn4 : (pyStartsWith (pyLower sn) "list" || containsSub (pyLower sn) "bullet"
        || containsSub (pyLower sn) "number") = true)
    (hn5 : containsSub (pyLower sn) "bullet" = false) :
    (extract_docx_content ⟨[b1, b2,
        .para ⟨sb, [⟨a, false, false⟩]⟩, .para ⟨sn, [⟨b, false, false⟩]⟩], rels⟩).map
        ExtractedContent.contentItems
      = (renderImages rels).map (fun imgs =>
          ["<ul>", "<li>" ++ pyStrip a ++ "</li>", "</ul>",
           "<ol>", "<li>" ++ pyStrip b ++ "</li>", "</ol>"] ++ imgs) := by
  rw [extract_map_contentItems]
  have hn4' : (pyStartsWith (pyLower sn) "list"
      || containsSub (pyLower sn) "number") = true := by
    rw [hn5] at hn4; simpa using hn4
  have hstep : processBlocks none ([b1, b2,
      Block.para ⟨sb, [⟨a, false, false⟩]⟩,
      Block.para ⟨sn, [⟨b, false, false⟩]⟩].drop 2)
      = ["<ul>", "<li>" ++ pyStrip a ++ "</li>", "</ul>",
         "<ol>", "<li>" ++ pyStrip b ++ "</li>", "</ol>"] := by
    show processBlocks none [Block.para ⟨sb, [⟨a, false, false⟩]⟩,
      Block.para ⟨sn, [⟨b, false, false⟩]⟩] = _
    simp only [processBlocks, processBlock, DocxParagraph.text, List.map, Run.text,
      String.join, List.foldl, String.empty_append,
      hb1, hb2, hb3, hb4, hn1, hn2, hn3, hn4', hn5,
      Bool.false_or, Bool.or_false, Bool.true_or, Bool.or_true,
      if_true, if_false, Bool.false_eq_true, ite_false, ite_true]
    rfl
  rw [hstep]

/-- Claim C6, witness at the built-in docx styles "List Bullet" and
"List Number". -/
theorem C6_witness :
    (extract_docx_content ⟨[.para ⟨"Normal", [⟨"T", false, false⟩]⟩,
        .para ⟨"Normal", [⟨"D", false, false⟩]⟩,
        .para ⟨"List Bullet", [⟨"A", false, false⟩]⟩,
        .para ⟨"List Number", [⟨"B", false, false⟩]⟩], []⟩).map
        ExtractedContent.contentItems
      = (renderImages []).map (fun imgs =>
          ["<ul>", "<li>" ++ pyStrip "A" ++ "</li>", "</ul>",
           "<ol>", "<li>" ++ pyStrip "B" ++ "</li>", "</ol>"] ++ imgs) :=
  C6_list_tag_change (.para ⟨"Normal", [⟨"T", false, false⟩]⟩)
    (.para ⟨"Normal", [⟨"D", false, false⟩]⟩)
    "List Bullet" "List Number" "A" "B" []
    (by decide) (by decide) (by decide) (by decide)
    (by decide) (by decide) (by decide) (by decide) (by decide)

/-- Claim C7: the content items of every successful extraction have
balanced list tags — every emitted ul or ol open tag is matched by its
closing tag and no list is left dangling at the end. -/
theorem C7_balanced (d : DocxDocument) (res : ExtractedContent)
    (h : extract_docx_content d = .ok res) :
    balancedListTags res.contentItems := by
  obtain ⟨imgs, hr, rfl⟩ := extract_ok_elim d res h
  show scanTags none (processBlocks none (d.blocks.drop 2) ++ imgs) = some none
  rw [scanTags_append, processBlocks_scan _ _ (Or.inl rfl)]
  show scanTags none imgs = some none
  exact scanTags_all_long imgs none (fun x hx => by
    obtain ⟨f, bb, rfl⟩ := renderImages_ok_shape d.rels imgs hr x hx
    exact imageTag_long f bb)

/-- Claim C7, witness on a document whose last block is a still-open
bullet list. -/
theorem C7_witness :
    balancedListTags ["<ul>", "<li>A</li>", "</ul>"] :=
  C7_balanced ⟨[.para ⟨"Normal", [⟨"T", false, false⟩]⟩,
      .para ⟨"Normal", [⟨"D", false, false⟩]⟩,
      .para ⟨"List Bullet", [⟨"A", false, false⟩]⟩], []⟩
    ⟨"T", "D", ["<ul>", "<li>A</li>", "</ul>"], "<ul><li>A</li></ul>", []⟩ rfl

/-- Claim C8: a table block with 2 rows of 3 cells produces a table
element with exactly two row elements, each holding exactly three cell
elements containing the trimmed cell texts in source order, and meeting a
table while a list is open emits the list close tag first. -/
theorem C8_table_two_by_three (x1 x2 x3 y1 y2 y3 : String) (tg : String) :
    tableHtml ⟨[[x1, x2, x3], [y1, y2, y3]]⟩
      = "<table class=\"table-auto border border-collapse border-gray-300 my-4\">"
        ++ "<tr>" ++ tdCell x1 ++ tdCell x2 ++ tdCell x3 ++ "</tr>"
        ++ "<tr>" ++ tdCell y1 ++ tdCell y2 ++ tdCell y3 ++ "</tr>"
        ++ "</table>"
    ∧ processBlock (some tg) (.table ⟨[[x1, x2, x3], [y1, y2, y3]]⟩)
        = ([closeTag tg, tableHtml ⟨[[x1, x2, x3], [y1, y2, y3]]⟩], none)
    ∧ processBlock none (.table ⟨[[x1, x2, x3], [y1, y2, y3]]⟩)
        = ([tableHtml ⟨[[x1, x2, x3], [y1, y2, y3]]⟩], none) :=
  ⟨rfl, rfl, rfl⟩

/-- Claim C9: extraction is deterministic — two runs of the extractor on
the same document (with the same image-relation enumeration order, which
is part of the input) produce the same title, description and body
HTML. -/
theorem C9_deterministic (d : DocxDocument) (r1 r2 : ExtractedContent)
    (h1 : extract_docx_content d = .ok r1)
    (h2 : extract_docx_content d = .ok r2) :
    r1.title = r2.title ∧ r1.description = r2.description
      ∧ r1.bodyHtml = r2.bodyHtml := by
  rw [h1] at h2
  cases Except.ok.inj h2
  exact ⟨rfl, rfl, rfl⟩

/-- Claim C9, witness: two runs on a fixed two-paragraph document. -/
theorem C9_witness :
    (ExtractedContent.mk "T" "D" [] "" []).title
        = (ExtractedContent.mk "T" "D" [] "" []).title
    ∧ (ExtractedContent.mk "T" "D" [] "" []).description
        = (ExtractedContent.mk "T" "D" [] "" []).description
    ∧ (ExtractedContent.mk "T" "D" [] "" []).bodyHtml
        = (ExtractedContent.mk "T" "D" [] "" []).bodyHtml :=
  C9_deterministic ⟨[.para ⟨"Normal", [⟨"T", false, false⟩]⟩,
      .para ⟨"Normal", [⟨"D", false, false⟩]⟩], []⟩
    ⟨"T", "D", [], "", []⟩ ⟨"T", "D", [], "", []⟩ rfl rfl

/-- Claim C10: a POST to the review page for an existing `.docx` review
always answers with a redirect back to the review page; the comment table
is left unchanged exactly when the comment field is missing or empty, and
a non-empty submitted comment appends exactly one row. -/
theorem C10_comment_insert (name : String) (fileExists : Bool)
    (commentField : Option String) (now : String) (db : List CommentRow)
    (hn : pyEndsWith name ".docx" = true) (hx : fileExists = true) :
    (review_post name fileExists commentField now db).2
        = ReviewPostResponse.redirectToReview name
    ∧ ((review_post name fileExists commentField now db).1 = db
        ↔ (commentField = none ∨ commentField = some ""))
    ∧ (∀ s, commentField = some s → ¬ s = "" →
        (review_post name fileExists commentField now db).1
          = db ++ [⟨name, s, now⟩]) := by
  subst hx
  rcases commentField with _ | c
  · have hrp : review_post name true none now db
        = (db, .redirectToReview name) := by
      simp [review_post, hn]
    exact ⟨by rw [hrp], by rw [hrp]; simp, fun s hs => Option.noConfusion hs⟩
  · by_cases hc : c = ""
    · subst hc
      have hrp : review_post name true (some "") now db
          = (db, .redirectToReview name) := by
        simp [review_post, hn]
      exact ⟨by rw [hrp], by rw [hrp]; simp,
        fun s hs hne => absurd (Option.some.inj hs).symm hne⟩
    · have hrp : review_post name true (some c) now db
          = (db ++ [⟨name, c, now⟩], .redirectToReview name) := by
        simp [review_post, hn, hc]
      refine ⟨by rw [hrp], ?_, fun s hs hne => ?_⟩
      · rw [hrp]
        constructor
        · intro he
          exfalso
          have hlen := congrArg List.length he
          rw [List.length_append, List.length_singleton] at hlen
          omega
        · rintro (h | h)
          · exact Option.noConfusion h
          · exact absurd (Option.some.inj h) hc
      · cases Option.some.inj hs
        rw [hrp]

/-- Claim C10, witness: a non-empty comment on an existing review. -/
theorem C10_witness :
    (review_post "r.docx" true (some "hi") "2020-01-01 00:00:00" []).2
        = ReviewPostResponse.redirectToReview "r.docx"
    ∧ ((review_post "r.docx" true (some "hi") "2020-01-01 00:00:00" []).1 = []
        ↔ ((some "hi" : Option String) = none
            ∨ (some "hi" : Option String) = some ""))
    ∧ (∀ s, (some "hi" : Option String) = some s → ¬ s = "" →
        (review_post "r.docx" true (some "hi") "2020-01-01 00:00:00" []).1
          = [] ++ [⟨"r.docx", s, "2020-01-01 00:00:00"⟩]) :=
  C10_comment_insert "r.docx" true (some "hi") "2020-01-01 00:00:00" []
    (by decide) rfl

end LitHub
